import Mathlib

/-!
Verification of the failover/playback core of the Radio-Browser MCP server.

The development shallowly embeds the Python sources:
  * `app.py`    — mirror discovery (`get_radiobrowser_base_urls`) and
                  failover dispatch (`download_radiobrowser`);
  * `server.py` — playback session state machine (reconnect backoff and
                  debounce, duration tracking, playlist resolution, personal
                  tag aggregation);
  * `db.py`     — the favorites upsert.

External collaborators (HTTP transport, DNS, the VLC player, `urllib.parse`
and the wall clock) are passed in as explicit parameters; machine floats are
modelled as rationals.  Python truthiness of optional strings / timestamps is
modelled explicitly.
-/

namespace RadioBrowser

/-- Python truthiness of an optional string (`None` and `""` are falsy). -/
def optStrTruthy : Option String → Bool
  | none => false
  | some s => !(s == "")

/-- Python truthiness of an optional float timestamp (`None` and `0` falsy). -/
def optQTruthy : Option ℚ → Bool
  | none => false
  | some q => !(q == 0)

/-- Accumulate elements left to right, skipping any element already seen
(the `if x not in acc: acc.append(x)` idiom used throughout `app.py` and in
the error aggregation of `download_radiobrowser`). -/
def uniqueList (l : List String) : List String :=
  l.foldl (fun acc e => if e ∈ acc then acc else acc ++ [e]) []


/-! ## Lexicographic string order

Python sorts strings lexicographically by code point.  The comparison is
implemented directly on the character data so that it evaluates inside the
kernel (the library comparison on `String` does not reduce there). -/

/-- Code-point lexicographic strict order on character lists. -/
def charListLtB : List Char → List Char → Bool
  | [], [] => false
  | [], _ :: _ => true
  | _ :: _, [] => false
  | a :: as, b :: bs =>
    if a.toNat < b.toNat then true
    else if b.toNat < a.toNat then false
    else charListLtB as bs

/-- Python's `<` on strings. -/
def strLtB (a b : String) : Bool := charListLtB a.data b.data

/-- Python's `<=` on strings (as used by `list.sort` and `sorted`). -/
def strLeB (a b : String) : Bool := !(strLtB b a)


/-! ## Kernel-evaluable string primitives

The library's `String.splitOn`, `trim`, `toLower`, `startsWith`, `endsWith`
and `intercalate` are implemented on byte positions and do not reduce inside
the kernel, so the Python string operations are modelled directly on the
character data. -/

/-- Split at the first occurrence of `sep`: `some (before, after)`, or
`none` when `sep` does not occur. -/
def findSub (sep : List Char) : List Char → Option (List Char × List Char)
  | [] => if sep.isEmpty then some ([], []) else none
  | c :: rest =>
    if sep.isPrefixOf (c :: rest) then some ([], (c :: rest).drop sep.length)
    else
      match findSub sep rest with
      | some (pre, post) => some (c :: pre, post)
      | none => none

/-- Fuel-driven repeated split (each step consumes at least one character
when `sep` is non-empty, so `length + 1` fuel always suffices). -/
def splitSub (sep : List Char) : Nat → List Char → List (List Char)
  | 0, l => [l]
  | fuel + 1, l =>
    match findSub sep l with
    | none => [l]
    | some (pre, post) => pre :: splitSub sep fuel post

/-- Python's `s.split(sep)` for a non-empty separator. -/
def pySplit (s sep : String) : List String :=
  (splitSub sep.data (s.data.length + 1) s.data).map (fun l => ⟨l⟩)

/-- Python's `s.split(sep, 1)`, as the pair (head, rest rejoined). -/
def joinWithSep (sep : String) : List String → String
  | [] => ""
  | [x] => x
  | x :: y :: rest => x ++ sep ++ joinWithSep sep (y :: rest)

/-- Python's `key, value = line.split(sep, 1)`. -/
def pySplitOnce (s sep : String) : String × String :=
  match pySplit s sep with
  | [] => (s, "")
  | k :: rest => (k, joinWithSep sep rest)

/-- Python's `s.strip()` (ASCII whitespace, which is all the sources use). -/
def pyStrip (s : String) : String :=
  ⟨((s.data.dropWhile Char.isWhitespace).reverse.dropWhile
      Char.isWhitespace).reverse⟩

/-- Python's `s.lower()` (the sources only lower-case ASCII data). -/
def pyToLower (s : String) : String := ⟨s.data.map Char.toLower⟩

/-- Python substring test `sub in s` for a non-empty needle: the needle
occurs in `s` iff splitting on it produces more than one part. -/
def pyContains (s sub : String) : Bool :=
  (pySplit s sub).length != 1

/-- Python's `s.startswith(pre)`. -/
def strStartsWith (s pre : String) : Bool := pre.data.isPrefixOf s.data

/-- Python's `s.endswith(suf)`. -/
def strEndsWith (s suf : String) : Bool :=
  suf.data.reverse.isPrefixOf s.data.reverse

/-- Python's string order as a relation (used by `sorted` / `list.sort`). -/
def strLe (a b : String) : Prop := strLeB a b = true

instance : DecidableRel strLe := fun a b =>
  inferInstanceAs (Decidable (strLeB a b = true))


/-! ## `app.py`: mirror discovery and failover dispatch -/

/-- The hardcoded fallback hostnames of `get_radiobrowser_base_urls`. -/
def fallbacks : List String :=
  [ "de1.api.radio-browser.info",
    "nl1.api.radio-browser.info",
    "at1.api.radio-browser.info",
    "fr1.api.radio-browser.info",
    "us1.api.radio-browser.info",
    "ca1.api.radio-browser.info" ]

/-- The process-wide module state of `app.py`: the `_cached_servers` global
(empty list means "not yet populated", exactly as in the Python). -/
structure MirrorState where
  cachedServers : List String
  deriving DecidableEq

/-- The body of `get_radiobrowser_base_urls` past the cache check.
`discovered` is the list of `name` fields appended by the discovery loop
(empty when the endpoint failed); `dnsHosts` is the sequence of hostnames the
reverse-DNS loop successfully resolved (per-IP failures already omitted).
Python's `list(set(hosts))` followed by `hosts.sort()` is the sorted list of
the distinct elements, here `dedup` then `mergeSort`. -/
def computeBaseUrls (discovered dnsHosts : List String) : List String :=
  let hosts := discovered
  let hosts := if hosts.isEmpty then
      dnsHosts.foldl (fun acc h => if h ∈ acc then acc else acc ++ [h]) []
    else hosts
  let hosts := fallbacks.foldl (fun acc fb => if fb ∈ acc then acc else acc ++ [fb]) hosts
  let hosts := List.insertionSort strLe hosts.dedup
  hosts.map (fun h => "https://" ++ h)

/-- `get_radiobrowser_base_urls`: return the cached list when populated,
otherwise compute, cache and return it. -/
def get_radiobrowser_base_urls (discovered dnsHosts : List String)
    (st : MirrorState) : List String × MirrorState :=
  if st.cachedServers.isEmpty then
    let r := computeBaseUrls discovered dnsHosts
    (r, { cachedServers := r })
  else (st.cachedServers, st)

/-- The per-mirror error description built in the failover loop of
`download_radiobrowser`: connection errors containing `urlopen error` are
shortened to the segment after the last so-called bracket separator. -/
def formatMirrorError (serverBase errMsg : String) : String :=
  if pyContains errMsg "urlopen error" then
    let short := if pyContains errMsg "]" then
        (errMsg.splitOn "] ").getLastD errMsg
      else errMsg
    serverBase ++ ": " ++ short
  else
    serverBase ++ ": " ++ errMsg

/-- The failover loop of `download_radiobrowser`.  `fetch` stands for
`download_uri` (success with response bytes, or an exception message).
Returns the result, the accumulated per-mirror error strings and the list of
mirrors actually contacted, in order. -/
def downloadLoop (fetch : String → Except String String) (path : String) :
    List String → List String → List String →
      Except String String × List String × List String
  | [], errors, tried =>
    (Except.error ("All Radio-Browser mirrors failed: " ++
        joinWithSep " | " (uniqueList errors)), errors, tried)
  | serverBase :: rest, errors, tried =>
    match fetch (serverBase ++ path) with
    | Except.ok content => (Except.ok content, errors, tried ++ [serverBase])
    | Except.error e =>
      downloadLoop fetch path rest (errors ++ [formatMirrorError serverBase e])
        (tried ++ [serverBase])

/-- `download_radiobrowser`: fetch the (cached) mirror list, shuffle it —
`random.shuffle` permutes the cached list object *in place*, which the model
captures by writing the shuffled list back into the cache — and walk the
shuffled list until one mirror succeeds.  `shuffle` stands for the random
permutation produced by this call's `random.shuffle`. -/
def download_radiobrowser (shuffle : List String → List String)
    (fetch : String → Except String String) (path : String)
    (discovered dnsHosts : List String) (st : MirrorState) :
    (Except String String × List String × List String) × MirrorState :=
  let (servers, st1) := get_radiobrowser_base_urls discovered dnsHosts st
  let shuffled := shuffle servers
  (downloadLoop fetch path shuffled [] [], { st1 with cachedServers := shuffled })

/-- Failover dispatch on an arbitrary current (shuffled) mirror list,
starting from empty accumulators; the object claim C2 speaks about. -/
def dispatchMirrors (fetch : String → Except String String) (path : String)
    (servers : List String) :
    Except String String × List String × List String :=
  downloadLoop fetch path servers [] []

/-- The per-mirror error descriptions a dispatch accumulates: one formatted
entry per failing mirror, in mirror order. -/
def perMirrorErrors (fetch : String → Except String String) (path : String)
    (servers : List String) : List String :=
  servers.filterMap (fun s =>
    match fetch (s ++ path) with
    | Except.ok _ => none
    | Except.error e => some (formatMirrorError s e))

/-- Request path built by `app.get_top_voted_stations(limit)`: the limit is
interpolated into the URL unmodified. -/
def get_top_voted_stations_path (limit : ℤ) : String :=
  "/json/stations/topvote/" ++ toString limit

/-- Request path built by `app.get_top_clicked_stations(limit)`. -/
def get_top_clicked_stations_path (limit : ℤ) : String :=
  "/json/stations/topclick/" ++ toString limit

/-! ## `server.py`: configuration, tool-level limits -/

/-- `search_global_top_voted_stations` forwards its `limit` argument to
`app.get_top_voted_stations` without any clamping. -/
def search_global_top_voted_stations_path (limit : ℤ) : String :=
  get_top_voted_stations_path limit

/-- `search_global_top_clicked_stations` forwards its `limit` argument to
`app.get_top_clicked_stations` without any clamping. -/
def search_global_top_clicked_stations_path (limit : ℤ) : String :=
  get_top_clicked_stations_path limit

/-- `safe_limit = max(1, min(1000, int(limit)))` in `get_available_tags`. -/
def get_available_tags_safe_limit (limit : ℤ) : ℤ :=
  max 1 (min 1000 limit)

/-- `safe_limit = max(1, min(1000, int(limit)))` in `get_my_top_tags`. -/
def get_my_top_tags_safe_limit (limit : ℤ) : ℤ :=
  max 1 (min 1000 limit)

/-! ## `server.py`: playback session state machine -/

/-- Default reconnect configuration (`RADIO_INITIAL_RECONNECT_DELAY` etc.
unset). -/
def INITIAL_RECONNECT_DELAY : ℚ := 1 / 10

/-- Default maximum reconnect delay. -/
def MAX_RECONNECT_DELAY : ℚ := 30

/-- Default backoff threshold. -/
def RECONNECT_BACKOFF_THRESHOLD : ℚ := 5

/-- The playback backend selector (`active_playback_backend`). -/
inductive Backend where
  | vlc
  | host
  deriving DecidableEq

/-- The module-level mutable state of `server.py` used by the playback
session: playback identity, database-tracking bookkeeping, reconnect
bookkeeping.  `reconnectTimerPending` models `reconnect_timer is not None and
reconnect_timer.is_alive()`; `timersScheduled` counts `threading.Timer`
creations by the reconnect path (a ghost observation).  `trackingTimerPending`
models a live `tracking_timer`. -/
structure ServerState where
  isIntentionallyStopped : Bool
  currentRadioUrl : Option String
  currentTrackName : Option String
  currentDbUrl : Option String
  currentDbName : Option String
  currentDbStationuuid : Option String
  playbackStartTime : Option ℚ
  lastDbUpdateTime : Option ℚ
  trackingTimerPending : Bool
  currentReconnectDelay : ℚ
  lastReconnectAttemptTime : ℚ
  reconnectTimerPending : Bool
  timersScheduled : ℕ
  activePlaybackBackend : Backend
  deriving DecidableEq

/-- Environment of a call: configuration flags and the outcomes of the
external collaborators (database write, VLC availability, host player). -/
structure Env where
  enableBackgroundTracking : Bool
  dbUpdateOk : Bool
  playerAvailable : Bool
  hostStopSuccess : Bool
  deriving DecidableEq

/-- `reconnect_callback` (the handler attached to the player's end-reached /
encountered-error events), at wall-clock time `now`. -/
def reconnect_callback (now : ℚ) (st : ServerState) : ServerState :=
  if st.isIntentionallyStopped || !(optStrTruthy st.currentRadioUrl) then st
  else
    let delay :=
      if now - st.lastReconnectAttemptTime < RECONNECT_BACKOFF_THRESHOLD then
        min (st.currentReconnectDelay * 2) MAX_RECONNECT_DELAY
      else INITIAL_RECONNECT_DELAY
    let st1 := { st with
      currentReconnectDelay := delay,
      lastReconnectAttemptTime := now }
    if st1.reconnectTimerPending then st1
    else { st1 with
      reconnectTimerPending := true,
      timersScheduled := st1.timersScheduled + 1 }

/-- An attempted `db.update_listening_history` call (its arguments). -/
structure DbCall where
  url : String
  duration : ℚ
  name : Option String
  stationuuid : String
  deriving DecidableEq

/-- `_update_duration`, at wall-clock time `now`.  Returns the new state and
the list of attempted persistence calls; on a database exception
(`env.dbUpdateOk = false`) the call is attempted but `last_db_update_time`
is left unchanged. -/
def update_duration (env : Env) (now : ℚ) (st : ServerState) :
    ServerState × List DbCall :=
  if optStrTruthy st.currentDbUrl && optQTruthy st.lastDbUpdateTime then
    let duration := now - st.lastDbUpdateTime.getD 0
    let stepped :=
      if 0 < duration then
        let call : DbCall :=
          ⟨st.currentDbUrl.getD "", duration, st.currentDbName,
            st.currentDbStationuuid.getD ""⟩
        if env.dbUpdateOk then
          ({ st with lastDbUpdateTime := some now }, [call])
        else (st, [call])
      else (st, ([] : List DbCall))
    if env.enableBackgroundTracking then
      ({ stepped.1 with trackingTimerPending := true }, stepped.2)
    else stepped
  else (st, [])

/-- `stop_radio`: commit the final duration, cancel the tracker, clear the
tracking fields, set the intentional-stop flag, then stop the active
backend.  Returns the new state, the `success` flag of the returned
envelope, and the attempted persistence calls. -/
def stop_radio (env : Env) (now : ℚ) (st : ServerState) :
    ServerState × Bool × List DbCall :=
  let committed := update_duration env now st
  let st2 := { committed.1 with
    trackingTimerPending := false,
    currentDbUrl := none,
    currentDbStationuuid := none,
    playbackStartTime := none,
    lastDbUpdateTime := none,
    isIntentionallyStopped := true }
  match st2.activePlaybackBackend with
  | Backend.host =>
    let st3 := { st2 with activePlaybackBackend := Backend.vlc }
    if env.hostStopSuccess then (st3, true, committed.2)
    else if env.playerAvailable then (st3, true, committed.2)
    else (st3, false, committed.2)
  | Backend.vlc =>
    if env.playerAvailable then
      ({ st2 with activePlaybackBackend := Backend.vlc }, true, committed.2)
    else (st2, false, committed.2)

/-! ## `server.py`: playlist resolution -/

/-- The absolute-or-relative resolution applied to an extracted playlist
entry; `uj` stands for `urllib.parse.urljoin`. -/
def resolveCandidate (uj : String → String → String) (url cand : String) :
    String :=
  if strStartsWith cand "http://" || strStartsWith cand "https://" then cand
  else uj url cand

/-- The `.pls` loop of `_extract_stream_url_from_playlist`: first `key=value`
line whose key lower-cases to a `file` prefix and whose stripped value is
non-empty. -/
def extractPls (uj : String → String → String) (url : String) :
    List String → Option String
  | [] => none
  | line :: rest =>
    let l := pyStrip line
    if l == "" || !(pyContains l "=") then extractPls uj url rest
    else
      let kv := pySplitOnce l "="
      if strStartsWith (pyToLower kv.1) "file" && !(pyStrip kv.2 == "") then
        some (resolveCandidate uj url (pyStrip kv.2))
      else extractPls uj url rest

/-- The `.m3u` loop: first non-empty, non-comment line. -/
def extractM3u (uj : String → String → String) (url : String) :
    List String → Option String
  | [] => none
  | line :: rest =>
    let l := pyStrip line
    if l == "" || strStartsWith l "#" then extractM3u uj url rest
    else some (resolveCandidate uj url l)

/-- `_extract_stream_url_from_playlist` (line splitting modelled on the
newline character; the `strip()` on each line absorbs carriage returns). -/
def extract_stream_url_from_playlist (uj : String → String → String)
    (url content : String) : Option String :=
  if strEndsWith (pyToLower url) ".pls" then
    extractPls uj url (pySplit content "\n")
  else extractM3u uj url (pySplit content "\n")

/-- `resolve_stream_url`.  `fetched` is the outcome of the bounded download
and lenient decode of the playlist body (an exception anywhere in the `try`
returns the original URL).  An extracted entry that is the empty string is
falsy in Python, so it too falls back to the original URL. -/
def resolve_stream_url (uj : String → String → String)
    (fetched : Except String String) (url : String) : String :=
  if strEndsWith (pyToLower url) ".m3u" || strEndsWith (pyToLower url) ".pls" then
    match fetched with
    | Except.error _ => url
    | Except.ok content =>
      match extract_stream_url_from_playlist uj url content with
      | some resolved => if resolved == "" then url else resolved
      | none => url
  else url

/-! ## `server.py`: personal tag aggregation -/

/-- `_parse_tags` inner loop with the `seen`/`parsed` accumulator (the
accumulator serves as both, membership being checked on it). -/
def parseTagsLoop : List String → List String → List String
  | [], acc => acc
  | part :: rest, acc =>
    let tag := pyToLower (pyStrip part)
    if tag == "" || tag ∈ acc then parseTagsLoop rest acc
    else parseTagsLoop rest (acc ++ [tag])

/-- `_parse_tags`: normalize a raw comma-separated tag string to a
lower-cased, deduplicated, order-preserving list. -/
def parse_tags (tagsRaw : String) : List String :=
  if pyStrip tagsRaw == "" then []
  else parseTagsLoop (pySplit tagsRaw ",") []

/-- A row of `db.get_listened_stations_with_tags()` as consumed by
`get_my_top_tags` (only the fields the aggregation reads). -/
structure HistoryRow where
  url : String
  listen_duration : ℚ
  tags_raw : String
  deriving DecidableEq

/-- `tag_scores[tag] = tag_scores.get(tag, 0.0) + duration` on an
insertion-ordered association list (a Python dict). -/
def bumpScore : List (String × ℚ) → String → ℚ → List (String × ℚ)
  | [], k, v => [(k, v)]
  | (k', v') :: rest, k, v =>
    if k' == k then (k', v' + v) :: rest
    else (k', v') :: bumpScore rest k v

/-- `tag_station_counts[tag] = tag_station_counts.get(tag, 0) + 1`. -/
def bumpCount : List (String × ℕ) → String → List (String × ℕ)
  | [], k => [(k, 1)]
  | (k', v') :: rest, k =>
    if k' == k then (k', v' + 1) :: rest
    else (k', v') :: bumpCount rest k

/-- One iteration of the row loop of `get_my_top_tags`: skip non-positive
durations, count the station, and accumulate every parsed tag. -/
def aggStep (acc : List (String × ℚ) × List (String × ℕ) × ℕ × ℕ)
    (row : HistoryRow) :
    List (String × ℚ) × List (String × ℕ) × ℕ × ℕ :=
  if row.listen_duration ≤ 0 then acc
  else
    let considered := acc.2.2.1 + 1
    let tags := parse_tags row.tags_raw
    if tags.isEmpty then (acc.1, acc.2.1, considered, acc.2.2.2)
    else
      (tags.foldl (fun m t => bumpScore m t row.listen_duration) acc.1,
        tags.foldl (fun m t => bumpCount m t) acc.2.1,
        considered, acc.2.2.2 + 1)

/-- Association-list lookup with default (`dict.get(k, d)`). -/
def alistLookupD {α : Type} (m : List (String × α)) (k : String) (d : α) :
    α :=
  match m.find? (fun p => p.1 == k) with
  | some p => p.2
  | none => d

/-- Round-half-to-even on rationals (Python's `round` on exactly
representable values). -/
def roundHalfEvenInt (q : ℚ) : ℤ :=
  let f := Int.floor q
  let r := q - f
  if r < 1 / 2 then f
  else if 1 / 2 < r then f + 1
  else if f % 2 = 0 then f else f + 1

/-- Python's `round(x, 2)`. -/
def pyRound2 (q : ℚ) : ℚ := (roundHalfEvenInt (q * 100) : ℚ) / 100

/-- The sort key of `get_my_top_tags`: ascending in `(-score, tag)`, i.e.
descending score with ties broken by ascending tag name. -/
def tagRel (a b : String × ℚ) : Prop :=
  b.2 < a.2 ∨ (a.2 = b.2 ∧ strLe a.1 b.1)

instance : DecidableRel tagRel := fun a b =>
  inferInstanceAs (Decidable (b.2 < a.2 ∨ (a.2 = b.2 ∧ strLe a.1 b.1)))

/-- One entry of the `top_tags` result list. -/
structure TagEntry where
  tag : String
  score : ℚ
  stations_count : ℕ
  deriving DecidableEq

/-- `get_my_top_tags` over the fetched history rows: aggregate, sort by the
key `(-score, tag)`, truncate to the clamped limit, round scores.  Returns
the result list together with the clamped limit and the
`stations_considered` / `stations_with_cached_tags` counters. -/
def get_my_top_tags (limit : ℤ) (rows : List HistoryRow) :
    List TagEntry × ℤ × ℕ × ℕ :=
  let safe := get_my_top_tags_safe_limit limit
  let agg := rows.foldl aggStep ([], [], 0, 0)
  let sortedScores := List.insertionSort tagRel agg.1
  let top := sortedScores.take safe.toNat
  (top.map (fun p => ⟨p.1, pyRound2 p.2, alistLookupD agg.2.1 p.1 0⟩),
    safe, agg.2.2.1, agg.2.2.2)

/-! ## `db.py`: favorites upsert -/

/-- A row of the `favorite_stations` table (keyed by `url`, which is the
map key in the table model). -/
structure FavRow where
  stationuuid : String
  name : String
  added_at : ℚ
  deriving DecidableEq

/-- `db.add_favorite`: `INSERT ... ON CONFLICT(url) DO UPDATE` keeping the
stored `stationuuid`/`name` when the argument is the empty string, and never
touching `added_at` on conflict.  The table is modelled as a map keyed by
the primary key `url`. -/
def add_favorite (now : ℚ) (url name stationuuid : String)
    (favorites : String → Option FavRow) : String → Option FavRow :=
  fun u =>
    if u = url then
      match favorites url with
      | none => some ⟨stationuuid, name, now⟩
      | some r =>
        some ⟨if stationuuid ≠ "" then stationuuid else r.stationuuid,
          if name ≠ "" then name else r.name,
          r.added_at⟩
    else favorites u

/-! ## Specification-side definitions

These definitions restate, in the words of the specification, what the
corresponding code is claimed to compute; the theorems compare them with the
code-derived definitions above. -/

/-- The candidate a `.pls` line contributes according to the specification:
a `key=value` line whose key case-insensitively starts with `file` and whose
stripped value is non-empty contributes that stripped value. -/
def plsCandidate (line : String) : Option String :=
  let l := pyStrip line
  if l == "" || !(pyContains l "=") then none
  else
    let kv := pySplitOnce l "="
    if strStartsWith (pyToLower kv.1) "file" && !(pyStrip kv.2 == "") then
      some (pyStrip kv.2)
    else none

/-- The candidate an `.m3u` line contributes according to the specification:
a non-empty, non-comment line contributes its stripped content. -/
def m3uCandidate (line : String) : Option String :=
  let l := pyStrip line
  if l == "" || strStartsWith l "#" then none else some l

/-- Specified accumulated score of a tag: the total listened duration over
the positive-duration rows whose parsed tag list contains the tag. -/
def specTagScore (t : String) : List HistoryRow → ℚ
  | [] => 0
  | r :: rest =>
    (if 0 < r.listen_duration ∧ t ∈ parse_tags r.tags_raw then
      r.listen_duration else 0) + specTagScore t rest

/-- Specified station count of a tag: the number of positive-duration rows
whose parsed tag list contains the tag. -/
def specTagCount (t : String) : List HistoryRow → ℕ
  | [] => 0
  | r :: rest =>
    (if 0 < r.listen_duration ∧ t ∈ parse_tags r.tags_raw then 1 else 0) +
      specTagCount t rest

/-! ## Concrete runs used by counterexamples and witnesses -/

/-- A first mirror resolution from a cold cache with both the discovery
endpoint and the DNS fallback failing. -/
def c1FirstResolve : List String × MirrorState :=
  get_radiobrowser_base_urls [] [] ⟨[]⟩

/-- A dispatch whose `random.shuffle` happens to reverse the list and whose
mirrors all refuse the connection. -/
def c1AfterDispatch : MirrorState :=
  (download_radiobrowser List.reverse (fun _ => Except.error "connection refused")
    "/json/stats" [] [] c1FirstResolve.2).2

/-- The mirror resolution performed after that dispatch. -/
def c1SecondResolve : List String × MirrorState :=
  get_radiobrowser_base_urls [] [] c1AfterDispatch

/-- A server state in which a stream is playing (used by witnesses). -/
def exPlayingState : ServerState where
  isIntentionallyStopped := false
  currentRadioUrl := some "http://stream.example/live"
  currentTrackName := none
  currentDbUrl := some "http://stream.example/live"
  currentDbName := some "Example FM"
  currentDbStationuuid := some "uuid-1"
  playbackStartTime := some 1000
  lastDbUpdateTime := some 1000
  trackingTimerPending := true
  currentReconnectDelay := 1 / 10
  lastReconnectAttemptTime := 0
  reconnectTimerPending := false
  timersScheduled := 0
  activePlaybackBackend := Backend.vlc

/-- An environment with a working player and database (used by witnesses). -/
def exEnv : Env where
  enableBackgroundTracking := true
  dbUpdateOk := true
  playerAvailable := true
  hostStopSuccess := false

/-- The history rows of the worked example of the specification. -/
def exRows : List HistoryRow :=
  [⟨"A", 100, "jazz,rock"⟩, ⟨"B", 50, "rock"⟩]

/-- A favorites table holding one row (used by the C10 witness). -/
def exFavorites : String → Option FavRow := fun u =>
  if u = "http://stream.example/live" then some ⟨"uuid-old", "Old Name", 5⟩
  else none

/-! ## Helper lemmas -/

theorem uniqueList_go_nodup (l : List String) (acc : List String)
    (hacc : acc.Nodup) :
    (l.foldl (fun acc e => if e ∈ acc then acc else acc ++ [e]) acc).Nodup := by
  induction l generalizing acc with
  | nil => simpa using hacc
  | cons x xs ih =>
    simp only [List.foldl_cons]
    by_cases hx : x ∈ acc
    · rw [if_pos hx]; exact ih acc hacc
    · rw [if_neg hx]
      refine ih (acc ++ [x]) ?_
      simpa [List.nodup_append, hx] using hacc

theorem uniqueList_nodup (l : List String) : (uniqueList l).Nodup :=
  uniqueList_go_nodup l [] (by simp)

theorem uniqueList_go_mem (l : List String) (acc : List String) (a : String) :
    a ∈ l.foldl (fun acc e => if e ∈ acc then acc else acc ++ [e]) acc ↔
      a ∈ acc ∨ a ∈ l := by
  induction l generalizing acc with
  | nil => simp
  | cons x xs ih =>
    simp only [List.foldl_cons]
    by_cases hx : x ∈ acc
    · rw [if_pos hx, ih]
      constructor
      · rintro (h | h)
        · exact Or.inl h
        · exact Or.inr (List.mem_cons_of_mem _ h)
      · rintro (h | h)
        · exact Or.inl h
        · rcases List.mem_cons.mp h with rfl | h
          · exact Or.inl hx
          · exact Or.inr h
    · rw [if_neg hx, ih]
      simp only [List.mem_append, List.mem_singleton, List.mem_cons]
      tauto

theorem uniqueList_mem (l : List String) (a : String) :
    a ∈ uniqueList l ↔ a ∈ l := by
  unfold uniqueList
  rw [uniqueList_go_mem]
  simp

theorem charListLtB_irrefl : ∀ l : List Char, charListLtB l l = false
  | [] => rfl
  | a :: as => by
    simp only [charListLtB, lt_irrefl, if_false, ite_self]
    simpa using charListLtB_irrefl as

theorem charListLtB_trans : ∀ a b c : List Char,
    charListLtB a b = true → charListLtB b c = true → charListLtB a c = true
  | [], _ :: _, _ :: _, _, _ => rfl
  | [], [], _, hab, _ => by simp [charListLtB] at hab
  | [], _ :: _, [], _, hbc => by simp [charListLtB] at hbc
  | _ :: _, [], _, hab, _ => by simp [charListLtB] at hab
  | _ :: _, _ :: _, [], _, hbc => by simp [charListLtB] at hbc
  | a :: as, b :: bs, c :: cs, hab, hbc => by
    simp only [charListLtB] at hab hbc ⊢
    rcases Nat.lt_trichotomy a.toNat b.toNat with h1 | h1 | h1
    · rcases Nat.lt_trichotomy b.toNat c.toNat with h2 | h2 | h2
      · have hac : a.toNat < c.toNat := Nat.lt_trans h1 h2
        simp [hac]
      · have hac : a.toNat < c.toNat := h2 ▸ h1
        simp [hac]
      · rw [if_neg (by omega), if_pos h2] at hbc
        exact absurd hbc (by simp)
    · rcases Nat.lt_trichotomy b.toNat c.toNat with h2 | h2 | h2
      · have hac : a.toNat < c.toNat := h1 ▸ h2
        simp [hac]
      · have hac : a.toNat = c.toNat := h1.trans h2
        rw [if_neg (by omega), if_neg (by omega)] at hab
        rw [if_neg (by omega), if_neg (by omega)] at hbc
        rw [if_neg (by omega), if_neg (by omega)]
        exact charListLtB_trans as bs cs hab hbc
      · rw [if_neg (by omega), if_pos h2] at hbc
        exact absurd hbc (by simp)
    · rw [if_neg (by omega), if_pos h1] at hab
      exact absurd hab (by simp)

theorem charListLtB_trichotomy : ∀ a b : List Char,
    charListLtB a b = true ∨ charListLtB b a = true ∨ a = b
  | [], [] => Or.inr (Or.inr rfl)
  | [], _ :: _ => Or.inl rfl
  | _ :: _, [] => Or.inr (Or.inl rfl)
  | a :: as, b :: bs => by
    by_cases h1 : a.toNat < b.toNat
    · exact Or.inl (by simp [charListLtB, h1])
    · by_cases h2 : b.toNat < a.toNat
      · exact Or.inr (Or.inl (by simp [charListLtB, h2]))
      · have hval : a.toNat = b.toNat := by omega
        have heq : a = b := Char.ext (UInt32.toNat.inj hval)
        subst heq
        rcases charListLtB_trichotomy as bs with h | h | h
        · refine Or.inl ?_
          simp [charListLtB, h]
        · refine Or.inr (Or.inl ?_)
          simp [charListLtB, h]
        · refine Or.inr (Or.inr ?_)
          rw [h]

theorem strLeB_total (a b : String) : (strLeB a b || strLeB b a) = true := by
  unfold strLeB strLtB
  cases hba : charListLtB b.data a.data with
  | false => simp
  | true =>
    cases hab : charListLtB a.data b.data with
    | false => simp
    | true =>
      have := charListLtB_trans _ _ _ hab hba
      rw [charListLtB_irrefl] at this
      exact absurd this (by simp)

theorem strLeB_trans (a b c : String) :
    strLeB a b = true → strLeB b c = true → strLeB a c = true := by
  unfold strLeB strLtB
  intro hab hbc
  rw [Bool.not_eq_true'] at hab hbc
  rw [Bool.not_eq_true']
  cases hca : charListLtB c.data a.data with
  | false => rfl
  | true =>
    rcases charListLtB_trichotomy a.data b.data with h1 | h1 | h1
    · have := charListLtB_trans _ _ _ hca h1
      rw [hbc] at this
      exact absurd this (by simp)
    · rw [hab] at h1
      exact absurd h1 (by simp)
    · rw [h1] at hca
      rw [hbc] at hca
      exact absurd hca (by simp)


/-! ## Claim C1 -/

set_option maxRecDepth 8000 in
/-- Claim C1 (refuted as stated; the first resolution is indeed non-empty,
deduplicated and sorted, but the cached-list contract is broken): after a
`download_radiobrowser` call, whose `random.shuffle` permutes the cached list
object in place, a later `get_radiobrowser_base_urls` returns a list that
differs from the first result and is no longer sorted lexicographically. -/
theorem C1_mirror_cache_mutated_by_dispatch :
    List.Pairwise strLe c1FirstResolve.1 ∧
      c1FirstResolve.1.Nodup ∧
      c1FirstResolve.1 ≠ [] ∧
      c1SecondResolve.1 ≠ c1FirstResolve.1 ∧
      ¬ List.Pairwise strLe c1SecondResolve.1 := by
  decide

/-! ## Claim C3 -/

/-- Claim C3: when a player end-of-stream or error event is handled while
not intentionally stopped and a URL is active, the last-reconnect-attempt
timestamp is set to now; if the gap since the previous attempt is below the
5-second threshold the delay is doubled and capped at 30 seconds, otherwise
it is reset to the initial 0.1 seconds. -/
theorem C3_reconnect_backoff_step (st : ServerState) (now : ℚ)
    (hstop : st.isIntentionallyStopped = false)
    (hurl : optStrTruthy st.currentRadioUrl = true) :
    (reconnect_callback now st).lastReconnectAttemptTime = now ∧
    (now - st.lastReconnectAttemptTime < RECONNECT_BACKOFF_THRESHOLD →
      (reconnect_callback now st).currentReconnectDelay =
        min (st.currentReconnectDelay * 2) MAX_RECONNECT_DELAY) ∧
    (RECONNECT_BACKOFF_THRESHOLD ≤ now - st.lastReconnectAttemptTime →
      (reconnect_callback now st).currentReconnectDelay =
        INITIAL_RECONNECT_DELAY) := by
  have hg : (st.isIntentionallyStopped || !(optStrTruthy st.currentRadioUrl))
      = false := by
    rw [hstop, hurl]
    rfl
  by_cases hA : now - st.lastReconnectAttemptTime < RECONNECT_BACKOFF_THRESHOLD <;>
    by_cases hp : st.reconnectTimerPending <;>
      refine ⟨?_, fun hA2 => ?_, fun hA2 => ?_⟩ <;>
        simp [reconnect_callback, hg, hA, hp] <;>
          linarith

/-- Witness for C3: a playing state with delay 0.1 and a reconnect event one
second after the previous attempt doubles the delay to 0.2 and stamps the
attempt time. -/
theorem C3_witness :
    exPlayingState.isIntentionallyStopped = false ∧
    optStrTruthy exPlayingState.currentRadioUrl = true ∧
    (reconnect_callback 1 exPlayingState).lastReconnectAttemptTime = 1 ∧
    (reconnect_callback 1 exPlayingState).currentReconnectDelay = 1 / 5 := by
  have h := C3_reconnect_backoff_step exPlayingState 1 rfl (by decide)
  refine ⟨rfl, by decide, h.1, ?_⟩
  have h2 := h.2.1 (by norm_num [exPlayingState, RECONNECT_BACKOFF_THRESHOLD])
  rw [h2]
  rw [show exPlayingState.currentReconnectDelay = 1 / 10 from rfl]
  rw [show (1 : ℚ) / 10 * 2 = 1 / 5 by norm_num]
  rw [min_eq_left (by norm_num [MAX_RECONNECT_DELAY])]

/-! ## Claim C4 -/

/-- Claim C4: if a reconnect timer is already pending, a further disconnect
event delivered to the reconnect callback schedules no second timer — the
timer-creation count is unchanged and the pending timer stays pending. -/
theorem C4_reconnect_debounce (st : ServerState) (now : ℚ)
    (hpend : st.reconnectTimerPending = true) :
    (reconnect_callback now st).timersScheduled = st.timersScheduled ∧
      (reconnect_callback now st).reconnectTimerPending = true := by
  by_cases hg : (st.isIntentionallyStopped || !(optStrTruthy st.currentRadioUrl))
      = true
  · simp [reconnect_callback, hg, hpend]
  · rw [Bool.not_eq_true] at hg
    simp [reconnect_callback, hg, hpend]

/-- Witness for C4: with a pending timer, a second disconnect event leaves
the timer-creation count at its previous value. -/
theorem C4_witness :
    ({ exPlayingState with reconnectTimerPending := true } :
        ServerState).reconnectTimerPending = true ∧
    (reconnect_callback 1
        { exPlayingState with reconnectTimerPending := true }).timersScheduled =
      ({ exPlayingState with reconnectTimerPending := true } :
        ServerState).timersScheduled := by
  have h := C4_reconnect_debounce
    { exPlayingState with reconnectTimerPending := true } 1 rfl
  exact ⟨rfl, h.1⟩

/-! ## Claim C9 -/

/-- Claim C9: the periodic duration commit attempts no persistence call when
no stream is tracked or the elapsed duration is not positive; on a failing
persistence call the last-commit timestamp is left unchanged (so the
interval is retained for the next attempt); on a successful call it advances
to now and exactly the elapsed interval is committed. -/
theorem C9_update_duration_commit (env : Env) (now : ℚ) (st : ServerState) :
    ((optStrTruthy st.currentDbUrl && optQTruthy st.lastDbUpdateTime) = false →
      update_duration env now st = (st, [])) ∧
    (∀ t, st.lastDbUpdateTime = some t → now - t ≤ 0 →
      (update_duration env now st).2 = [] ∧
      (update_duration env now st).1.lastDbUpdateTime = st.lastDbUpdateTime) ∧
    (env.dbUpdateOk = false →
      (update_duration env now st).1.lastDbUpdateTime = st.lastDbUpdateTime) ∧
    (∀ u t, st.currentDbUrl = some u → st.lastDbUpdateTime = some t →
      0 < now - t → env.dbUpdateOk = true →
      (optStrTruthy st.currentDbUrl && optQTruthy st.lastDbUpdateTime) = true →
      (update_duration env now st).1.lastDbUpdateTime = some now ∧
      (update_duration env now st).2 =
        [⟨u, now - t, st.currentDbName, st.currentDbStationuuid.getD ""⟩]) := by
  refine ⟨fun hg => ?_, fun t ht hd => ?_, fun hdb => ?_, fun u t hu ht hd hdb hg => ?_⟩
  · simp [update_duration, hg]
  · by_cases hg : (optStrTruthy st.currentDbUrl && optQTruthy st.lastDbUpdateTime) = true
    · have hdur : ¬ (0 < now - st.lastDbUpdateTime.getD 0) := by
        rw [ht]
        simp only [Option.getD_some]
        linarith
      by_cases hbt : env.enableBackgroundTracking <;>
        simp [update_duration, hg, hdur, hbt]
    · rw [Bool.not_eq_true] at hg
      simp [update_duration, hg]
  · by_cases hg : (optStrTruthy st.currentDbUrl && optQTruthy st.lastDbUpdateTime) = true
    · by_cases hdur : 0 < now - st.lastDbUpdateTime.getD 0 <;>
        by_cases hbt : env.enableBackgroundTracking <;>
          simp [update_duration, hg, hdur, hbt, hdb]
    · rw [Bool.not_eq_true] at hg
      simp [update_duration, hg]
  · have hd' : t < now := by linarith
    have hdur : 0 < now - st.lastDbUpdateTime.getD 0 := by
      rw [ht]
      simpa using hd
    rw [hu, ht, Bool.and_eq_true] at hg
    by_cases hbt : env.enableBackgroundTracking <;>
      simp [update_duration, hg.1, hg.2, hdur, hbt, hdb, hu, ht, hd, hd']

/-- Witness for C9: a tracked stream committed 60 seconds after the last
commit advances the timestamp and attempts exactly one call carrying the
60-second interval. -/
theorem C9_witness :
    exPlayingState.currentDbUrl = some "http://stream.example/live" ∧
    exPlayingState.lastDbUpdateTime = some 1000 ∧
    (update_duration exEnv 1060 exPlayingState).1.lastDbUpdateTime =
      some 1060 ∧
    (update_duration exEnv 1060 exPlayingState).2 =
      [⟨"http://stream.example/live", 60, some "Example FM", "uuid-1"⟩] := by
  have h := (C9_update_duration_commit exEnv 1060 exPlayingState).2.2.2
    "http://stream.example/live" 1000 rfl rfl (by norm_num) rfl (by decide)
  refine ⟨rfl, rfl, h.1, ?_⟩
  rw [h.2]
  norm_num [exPlayingState]

/-! ## Claim C10 -/

/-- Claim C10: upserting a favorite whose URL already exists keeps the
stored name and stationuuid whenever the corresponding argument is empty,
overwrites them when non-empty, never modifies the stored added_at
timestamp, and leaves every other row of the table unchanged. -/
theorem C10_add_favorite_upsert (favorites : String → Option FavRow)
    (now : ℚ) (url name stationuuid : String) (r : FavRow)
    (h : favorites url = some r) :
    (add_favorite now url name stationuuid favorites url =
      some ⟨if stationuuid = "" then r.stationuuid else stationuuid,
        if name = "" then r.name else name,
        r.added_at⟩) ∧
    ∀ u, u ≠ url → add_favorite now url name stationuuid favorites u =
      favorites u := by
  constructor
  · by_cases hn : name = "" <;> by_cases hs : stationuuid = "" <;>
      simp [add_favorite, h, hn, hs]
  · intro u hu
    simp [add_favorite, hu]

/-- Witness for C10: re-adding an existing favorite with an empty name and a
new stationuuid keeps the stored name and added_at, overwrites the
stationuuid, and leaves absent rows absent. -/
theorem C10_witness :
    exFavorites "http://stream.example/live" =
      some ⟨"uuid-old", "Old Name", 5⟩ ∧
    add_favorite 99 "http://stream.example/live" "" "uuid-new" exFavorites
      "http://stream.example/live" = some ⟨"uuid-new", "Old Name", 5⟩ ∧
    add_favorite 99 "http://stream.example/live" "" "uuid-new" exFavorites
      "http://other" = none := by
  have h := C10_add_favorite_upsert exFavorites 99 "http://stream.example/live"
    "" "uuid-new" ⟨"uuid-old", "Old Name", 5⟩ rfl
  refine ⟨rfl, ?_, ?_⟩
  · rw [h.1]
    norm_num
    exact fun hfalse => absurd hfalse (by decide)
  · rw [h.2 "http://other" (by decide)]
    rfl

/-! ## Claim C5 -/

/-- Claim C5 (refuted as stated): the top-voted tool issues its request with
the caller's limit embedded unmodified, so for limit 5000 the request path
carries a limit outside the range one to one thousand. -/
theorem C5_counterexample :
    search_global_top_voted_stations_path 5000 =
      "/json/stations/topvote/5000" ∧ ¬ ((5000 : ℤ) ≤ 1000) := by
  refine ⟨rfl, by norm_num⟩

/-- Claim C5 as amended: the tag listing and the top-personal-tags tools
clamp their limit to the range one to one thousand before building the
request, while the top-voted and top-clicked tools interpolate the caller's
limit into the request path unmodified. -/
theorem C5_amended_limit_clamping (limit : ℤ) :
    (1 ≤ get_available_tags_safe_limit limit ∧
      get_available_tags_safe_limit limit ≤ 1000) ∧
    (1 ≤ get_my_top_tags_safe_limit limit ∧
      get_my_top_tags_safe_limit limit ≤ 1000) ∧
    search_global_top_voted_stations_path limit =
      "/json/stations/topvote/" ++ toString limit ∧
    search_global_top_clicked_stations_path limit =
      "/json/stations/topclick/" ++ toString limit := by
  refine ⟨⟨?_, ?_⟩, ⟨?_, ?_⟩, rfl, rfl⟩ <;>
    simp [get_available_tags_safe_limit, get_my_top_tags_safe_limit]

/-! ## Claim C6 -/

theorem extractPls_eq (uj : String → String → String) (url : String) :
    ∀ lines : List String,
      extractPls uj url lines =
        ((lines.filterMap plsCandidate).head?).map (resolveCandidate uj url)
  | [] => rfl
  | line :: rest => by
    by_cases h1 : (pyStrip line == "" || !(pyContains (pyStrip line) "=")) = true
    · simp only [extractPls, plsCandidate, List.filterMap_cons, h1, if_true,
        if_pos]
      exact extractPls_eq uj url rest
    · rw [Bool.not_eq_true] at h1
      by_cases h2 : (strStartsWith (pyToLower (pySplitOnce (pyStrip line) "=").1)
          "file" && !(pyStrip (pySplitOnce (pyStrip line) "=").2 == "")) = true
      · simp [extractPls, plsCandidate, h1, h2]
      · rw [Bool.not_eq_true] at h2
        simp only [extractPls, plsCandidate, List.filterMap_cons, h1, h2,
          Bool.false_eq_true, if_false]
        exact extractPls_eq uj url rest

theorem extractM3u_eq (uj : String → String → String) (url : String) :
    ∀ lines : List String,
      extractM3u uj url lines =
        ((lines.filterMap m3uCandidate).head?).map (resolveCandidate uj url)
  | [] => rfl
  | line :: rest => by
    by_cases h1 : (pyStrip line == "" || strStartsWith (pyStrip line) "#") = true
    · simp only [extractM3u, m3uCandidate, List.filterMap_cons, h1, if_true,
        if_pos]
      exact extractM3u_eq uj url rest
    · rw [Bool.not_eq_true] at h1
      simp [extractM3u, m3uCandidate, h1]

/-- Claim C6: playlist resolution is total and returns the original URL for
non-playlist extensions (including adaptive-streaming URLs, passed through
untouched) and on any network or decode error; for a playlist URL ending in
pls it resolves the first file-key line with a non-empty value, for one
ending in m3u the first non-empty non-comment line, in both cases applying
relative resolution against the original URL when the entry is not absolute;
and the worked examples of the specification evaluate as claimed. -/
theorem C6_resolve_stream_url (uj : String → String → String) :
    (∀ url fetched,
      strEndsWith (pyToLower url) ".m3u" = false →
      strEndsWith (pyToLower url) ".pls" = false →
      resolve_stream_url uj fetched url = url) ∧
    (∀ url e, resolve_stream_url uj (Except.error e) url = url) ∧
    (∀ url content, strEndsWith (pyToLower url) ".pls" = true →
      resolve_stream_url uj (Except.ok content) url =
        (match ((pySplit content "\n").filterMap plsCandidate).head? with
          | some cand =>
            if resolveCandidate uj url cand == "" then url
            else resolveCandidate uj url cand
          | none => url)) ∧
    (∀ url content, strEndsWith (pyToLower url) ".m3u" = true →
      strEndsWith (pyToLower url) ".pls" = false →
      resolve_stream_url uj (Except.ok content) url =
        (match ((pySplit content "\n").filterMap m3uCandidate).head? with
          | some cand =>
            if resolveCandidate uj url cand == "" then url
            else resolveCandidate uj url cand
          | none => url)) ∧
    (∀ url cand, strStartsWith cand "http://" = false →
      strStartsWith cand "https://" = false →
      resolveCandidate uj url cand = uj url cand) ∧
    (∀ fetched, resolve_stream_url uj fetched "http://a/stream.m3u8" =
      "http://a/stream.m3u8") ∧
    resolve_stream_url uj (Except.ok "File1=http://x/stream\n")
      "http://a/b.pls" = "http://x/stream" ∧
    resolve_stream_url uj (Except.ok "#comment\nhttp://y/stream\n")
      "http://a/b.m3u" = "http://y/stream" := by
  refine ⟨fun url fetched h1 h2 => ?_, fun url e => ?_,
    fun url content hpls => ?_, fun url content hm3u hpls => ?_,
    fun url cand h1 h2 => ?_, fun fetched => rfl, rfl, rfl⟩
  · simp [resolve_stream_url, h1, h2]
  · by_cases hg : (strEndsWith (pyToLower url) ".m3u" ||
        strEndsWith (pyToLower url) ".pls") = true
    · simp [resolve_stream_url, hg]
    · rw [Bool.not_eq_true] at hg
      simp [resolve_stream_url, hg]
  · rw [resolve_stream_url]
    simp only [hpls, Bool.or_true, if_true, if_pos]
    rw [extract_stream_url_from_playlist]
    simp only [hpls, if_true, if_pos]
    rw [extractPls_eq]
    cases hh : ((pySplit content "\n").filterMap plsCandidate).head? <;>
      simp [hh]
  · rw [resolve_stream_url]
    simp only [hm3u, Bool.true_or, if_true, if_pos]
    rw [extract_stream_url_from_playlist]
    simp only [hpls, Bool.false_eq_true, if_false]
    rw [extractM3u_eq]
    cases hh : ((pySplit content "\n").filterMap m3uCandidate).head? <;>
      simp [hh]
  · simp [resolveCandidate, h1, h2]

/-- Witness for C6: a pls playlist whose entry is relative is resolved
against the original URL via the urljoin collaborator. -/
theorem C6_witness :
    strEndsWith (pyToLower "http://a/b.pls") ".pls" = true ∧
    resolve_stream_url (fun u c => u ++ c) (Except.ok "File1=stream.mp3\n")
      "http://a/b.pls" = "http://a/b.plsstream.mp3" := by
  have h := (C6_resolve_stream_url (fun u c => u ++ c)).2.2.1 "http://a/b.pls"
    "File1=stream.mp3\n" (by decide)
  refine ⟨by decide, ?_⟩
  rw [h]
  decide

/-! ## Claim C2 -/

theorem downloadLoop_tried (fetch : String → Except String String)
    (path : String) :
    ∀ (servers errors tried : List String),
      ∃ p, p <+: servers ∧
        (downloadLoop fetch path servers errors tried).2.2 = tried ++ p := by
  intro servers
  induction servers with
  | nil =>
    intro errors tried
    exact ⟨[], by simp, by simp [downloadLoop]⟩
  | cons s rest ih =>
    intro errors tried
    cases hf : fetch (s ++ path) with
    | ok c =>
      refine ⟨[s], ⟨rest, rfl⟩, ?_⟩
      simp [downloadLoop, hf]
    | error e =>
      obtain ⟨p, hp, he⟩ := ih (errors ++ [formatMirrorError s e]) (tried ++ [s])
      refine ⟨s :: p, ?_, ?_⟩
      · obtain ⟨q, hq⟩ := hp
        exact ⟨q, by rw [List.cons_append, hq]⟩
      · rw [downloadLoop]
        simp only [hf]
        rw [he]
        simp

theorem downloadLoop_first_success (fetch : String → Except String String)
    (path : String) (c : String) :
    ∀ (pre : List String) (s : String) (post errors tried : List String),
      (∀ m ∈ pre, (fetch (m ++ path)).isOk = false) →
      fetch (s ++ path) = Except.ok c →
      (downloadLoop fetch path (pre ++ s :: post) errors tried).1 =
          Except.ok c ∧
        (downloadLoop fetch path (pre ++ s :: post) errors tried).2.2 =
          tried ++ pre ++ [s] := by
  intro pre
  induction pre with
  | nil =>
    intro s post errors tried _ hs
    constructor <;> simp [downloadLoop, hs]
  | cons m pre ih =>
    intro s post errors tried hpre hs
    have hm : (fetch (m ++ path)).isOk = false := hpre m (List.mem_cons_self m pre)
    cases hf : fetch (m ++ path) with
    | ok c2 => rw [hf] at hm; simp [Except.isOk, Except.toBool] at hm
    | error e =>
      have := ih s post (errors ++ [formatMirrorError m e]) (tried ++ [m])
        (fun m2 hm2 => hpre m2 (List.mem_cons_of_mem m hm2)) hs
      constructor
      · rw [List.cons_append, downloadLoop]
        simp only [hf]
        exact this.1
      · rw [List.cons_append, downloadLoop]
        simp only [hf]
        rw [this.2]
        simp

theorem downloadLoop_all_fail (fetch : String → Except String String)
    (path : String) :
    ∀ (servers errors tried : List String),
      (∀ m ∈ servers, (fetch (m ++ path)).isOk = false) →
      (downloadLoop fetch path servers errors tried).1 =
        Except.error ("All Radio-Browser mirrors failed: " ++
          joinWithSep " | "
            (uniqueList (errors ++ perMirrorErrors fetch path servers))) := by
  intro servers
  induction servers with
  | nil =>
    intro errors tried _
    simp [downloadLoop, perMirrorErrors]
  | cons s rest ih =>
    intro errors tried h
    have hs : (fetch (s ++ path)).isOk = false := h s (List.mem_cons_self s rest)
    cases hf : fetch (s ++ path) with
    | ok c2 => rw [hf] at hs; simp [Except.isOk, Except.toBool] at hs
    | error e =>
      rw [downloadLoop]
      simp only [hf]
      rw [ih (errors ++ [formatMirrorError s e]) (tried ++ [s])
        (fun m2 hm2 => h m2 (List.mem_cons_of_mem s hm2))]
      have hper : perMirrorErrors fetch path (s :: rest) =
          formatMirrorError s e :: perMirrorErrors fetch path rest := by
        simp [perMirrorErrors, hf]
      rw [hper]
      simp

theorem downloadLoop_isOk_iff (fetch : String → Except String String)
    (path : String) :
    ∀ (servers errors tried : List String),
      ((downloadLoop fetch path servers errors tried).1.isOk = false ↔
        ∀ m ∈ servers, (fetch (m ++ path)).isOk = false) := by
  intro servers
  induction servers with
  | nil =>
    intro errors tried
    simp [downloadLoop, Except.isOk, Except.toBool]
  | cons s rest ih =>
    intro errors tried
    cases hf : fetch (s ++ path) with
    | ok c =>
      rw [downloadLoop]
      simp only [hf]
      simp [Except.isOk, Except.toBool, hf]
    | error e =>
      rw [downloadLoop]
      simp only [hf]
      rw [ih (errors ++ [formatMirrorError s e]) (tried ++ [s])]
      constructor
      · intro hall m hm
        rcases List.mem_cons.mp hm with rfl | hm2
        · rw [hf]; simp [Except.isOk, Except.toBool]
        · exact hall m hm2
      · intro hall m hm
        exact hall m (List.mem_cons_of_mem s hm)

/-- Claim C2: in one dispatch each mirror of the (shuffled) current list is
contacted at most once and in list order; the first mirror that succeeds
determines the returned bytes and no later mirror is contacted; the dispatch
fails exactly when every mirror failed, and then the aggregate error message
is the pipe-joined deduplicated collection of the per-mirror error
descriptions. -/
theorem C2_dispatch_failover (fetch : String → Except String String)
    (path : String) (servers : List String) :
    (servers.Nodup → (dispatchMirrors fetch path servers).2.2.Nodup) ∧
    (∀ pre s post c, servers = pre ++ s :: post →
      (∀ m ∈ pre, (fetch (m ++ path)).isOk = false) →
      fetch (s ++ path) = Except.ok c →
      (dispatchMirrors fetch path servers).1 = Except.ok c ∧
        (dispatchMirrors fetch path servers).2.2 = pre ++ [s]) ∧
    ((dispatchMirrors fetch path servers).1.isOk = false ↔
      ∀ m ∈ servers, (fetch (m ++ path)).isOk = false) ∧
    ((∀ m ∈ servers, (fetch (m ++ path)).isOk = false) →
      (dispatchMirrors fetch path servers).1 =
        Except.error ("All Radio-Browser mirrors failed: " ++
          joinWithSep " | " (uniqueList (perMirrorErrors fetch path servers))) ∧
        (uniqueList (perMirrorErrors fetch path servers)).Nodup ∧
        ∀ e, e ∈ uniqueList (perMirrorErrors fetch path servers) ↔
          e ∈ perMirrorErrors fetch path servers) := by
  refine ⟨fun hnd => ?_, fun pre s post c hsplit hpre hs => ?_, ?_, fun hall => ?_⟩
  · obtain ⟨p, hp, he⟩ := downloadLoop_tried fetch path servers [] []
    rw [dispatchMirrors, he]
    simpa using hnd.sublist hp.sublist
  · subst hsplit
    have h := downloadLoop_first_success fetch path c pre s post [] [] hpre hs
    rw [dispatchMirrors]
    simpa using h
  · exact downloadLoop_isOk_iff fetch path servers [] []
  · refine ⟨?_, uniqueList_nodup _, fun e => uniqueList_mem _ e⟩
    have h := downloadLoop_all_fail fetch path servers [] [] hall
    rw [dispatchMirrors, h]
    simp

/-- Witness for C2: two mirrors, the first refusing and the second serving
the response, give the second mirror's bytes after contacting exactly those
two mirrors in order; with both failing, the aggregate error joins the two
distinct per-mirror descriptions. -/
theorem C2_witness :
    (["https://a", "https://b"] : List String).Nodup ∧
    (dispatchMirrors
        (fun u => if u = "https://b/json/stats" then Except.ok "payload"
          else Except.error "refused")
        "/json/stats" ["https://a", "https://b"]).2.2.Nodup ∧
    (dispatchMirrors
        (fun u => if u = "https://b/json/stats" then Except.ok "payload"
          else Except.error "refused")
        "/json/stats" ["https://a", "https://b"]).1 = Except.ok "payload" ∧
    (dispatchMirrors (fun _ => Except.error "refused") "/json/stats"
        ["https://a", "https://b"]).1 =
      Except.error ("All Radio-Browser mirrors failed: " ++
        "https://a: refused | https://b: refused") := by
  have hnd : (["https://a", "https://b"] : List String).Nodup := by decide
  refine ⟨hnd, ?_, ?_, ?_⟩
  · exact (C2_dispatch_failover
      (fun u => if u = "https://b/json/stats" then Except.ok "payload"
        else Except.error "refused")
      "/json/stats" ["https://a", "https://b"]).1 hnd
  · exact ((C2_dispatch_failover
      (fun u => if u = "https://b/json/stats" then Except.ok "payload"
        else Except.error "refused")
      "/json/stats" ["https://a", "https://b"]).2.1 ["https://a"] "https://b"
      [] "payload" rfl (by decide) rfl).1
  · have h := ((C2_dispatch_failover (fun _ => Except.error "refused")
      "/json/stats" ["https://a", "https://b"]).2.2.2 (by decide)).1
    rw [h]
    rfl

/-! ## Claim C7 -/

theorem reconnect_callback_stopped (now : ℚ) (st : ServerState)
    (h : st.isIntentionallyStopped = true) : reconnect_callback now st = st := by
  simp [reconnect_callback, h]

theorem foldl_reconnect_stopped (st : ServerState)
    (h : st.isIntentionallyStopped = true) :
    ∀ events : List ℚ,
      events.foldl (fun s t => reconnect_callback t s) st = st
  | [] => rfl
  | t :: rest => by
    rw [List.foldl_cons, reconnect_callback_stopped t st h]
    exact foldl_reconnect_stopped st h rest

theorem update_duration_no_url (env : Env) (now : ℚ) (st : ServerState)
    (h : st.currentDbUrl = none) : update_duration env now st = (st, []) := by
  simp [update_duration, h, optStrTruthy]

theorem stop_radio_result (env : Env) (now : ℚ) (st : ServerState) :
    (stop_radio env now st).1 =
      { (update_duration env now st).1 with
        trackingTimerPending := false,
        currentDbUrl := none,
        currentDbStationuuid := none,
        playbackStartTime := none,
        lastDbUpdateTime := none,
        isIntentionallyStopped := true,
        activePlaybackBackend := Backend.vlc } := by
  rcases hu : update_duration env now st with ⟨u, calls⟩
  obtain ⟨f1, f2, f3, f4, f5, f6, f7, f8, f9, f10, f11, f12, f13, f14⟩ := u
  simp only [stop_radio, hu]
  cases f14 <;> dsimp only <;> split_ifs <;> rfl

theorem stop_radio_success (env : Env) (now : ℚ) (st : ServerState)
    (hplayer : env.playerAvailable = true) :
    (stop_radio env now st).2.1 = true := by
  rcases hu : update_duration env now st with ⟨u, calls⟩
  obtain ⟨f1, f2, f3, f4, f5, f6, f7, f8, f9, f10, f11, f12, f13, f14⟩ := u
  simp only [stop_radio, hu]
  cases f14 <;> dsimp only <;> split_ifs <;> simp_all

/-- Claim C7: stop sets the intentional-stop flag; afterwards any sequence
of player end-of-stream or error events handled by the reconnect callback
leaves the state untouched (no timer scheduled, no field modified); and with
the player capability available a second consecutive stop leaves exactly the
same final state and also reports success. -/
theorem C7_stop_radio_suppresses_reconnect (env : Env) (now1 now2 : ℚ)
    (st : ServerState) (hplayer : env.playerAvailable = true) :
    (stop_radio env now1 st).1.isIntentionallyStopped = true ∧
    (∀ events : List ℚ,
      events.foldl (fun s t => reconnect_callback t s)
        (stop_radio env now1 st).1 = (stop_radio env now1 st).1) ∧
    (stop_radio env now2 (stop_radio env now1 st).1).1 =
      (stop_radio env now1 st).1 ∧
    (stop_radio env now2 (stop_radio env now1 st).1).2.1 = true := by
  have hform := stop_radio_result env now1 st
  have hflag : (stop_radio env now1 st).1.isIntentionallyStopped = true := by
    rw [hform]
  have h1url : (stop_radio env now1 st).1.currentDbUrl = none := by
    rw [hform]
  have h1backend : (stop_radio env now1 st).1.activePlaybackBackend =
      Backend.vlc := by
    rw [hform]
  refine ⟨hflag, fun events => foldl_reconnect_stopped _ hflag events, ?_, ?_⟩
  · rw [stop_radio_result env now2 (stop_radio env now1 st).1,
      update_duration_no_url env now2 _ h1url, hform]
  · exact stop_radio_success env now2 _ hplayer

/-- Witness for C7: stopping the example playing state with a working
player reports success twice, ends intentionally stopped, and a subsequent
disconnect event is a no-op. -/
theorem C7_witness :
    exEnv.playerAvailable = true ∧
    (stop_radio exEnv 1100 exPlayingState).1.isIntentionallyStopped = true ∧
    reconnect_callback 1200 (stop_radio exEnv 1100 exPlayingState).1 =
      (stop_radio exEnv 1100 exPlayingState).1 ∧
    (stop_radio exEnv 1200
        (stop_radio exEnv 1100 exPlayingState).1).1 =
      (stop_radio exEnv 1100 exPlayingState).1 ∧
    (stop_radio exEnv 1200
        (stop_radio exEnv 1100 exPlayingState).1).2.1 = true := by
  have h := C7_stop_radio_suppresses_reconnect exEnv 1100 1200 exPlayingState
    rfl
  refine ⟨rfl, h.1, ?_, h.2.2.1, h.2.2.2⟩
  have h2 := h.2.1 [1200]
  simpa using h2

/-! ## Claim C8: lemmas on tag parsing -/

theorem parseTagsLoop_nodup : ∀ (parts acc : List String), acc.Nodup →
    (parseTagsLoop parts acc).Nodup
  | [], _, h => h
  | part :: rest, acc, h => by
    rw [parseTagsLoop]
    cases hc : (pyToLower (pyStrip part) == "" ||
        decide (pyToLower (pyStrip part) ∈ acc)) with
    | true =>
      simp only [hc, if_true, if_pos]
      exact parseTagsLoop_nodup rest acc h
    | false =>
      simp only [hc, Bool.false_eq_true, if_false]
      refine parseTagsLoop_nodup rest (acc ++ [pyToLower (pyStrip part)]) ?_
      rw [Bool.or_eq_false_iff] at hc
      have hmem : pyToLower (pyStrip part) ∉ acc := of_decide_eq_false hc.2
      simp [List.nodup_append, h, hmem]

theorem parseTagsLoop_spec : ∀ (parts acc : List String),
    ∃ suffix, parseTagsLoop parts acc = acc ++ suffix ∧
      List.Sublist suffix (parts.map (fun p => pyToLower (pyStrip p))) ∧
      "" ∉ suffix
  | [], acc => ⟨[], by rw [parseTagsLoop]; simp, by simp, by simp⟩
  | part :: rest, acc => by
    rw [parseTagsLoop]
    cases hc : (pyToLower (pyStrip part) == "" ||
        decide (pyToLower (pyStrip part) ∈ acc)) with
    | true =>
      obtain ⟨suf, h1, h2, h3⟩ := parseTagsLoop_spec rest acc
      exact ⟨suf, by simp only [hc, if_true, if_pos]; exact h1,
        h2.trans (List.sublist_cons_self _ _), h3⟩
    | false =>
      obtain ⟨suf, h1, h2, h3⟩ :=
        parseTagsLoop_spec rest (acc ++ [pyToLower (pyStrip part)])
      refine ⟨pyToLower (pyStrip part) :: suf, ?_, ?_, ?_⟩
      · simp only [hc, Bool.false_eq_true, if_false]
        rw [h1]
        simp
      · exact h2.cons₂ _
      · rw [Bool.or_eq_false_iff] at hc
        have hne : pyToLower (pyStrip part) ≠ "" := by
          intro habs
          rw [habs] at hc
          simp at hc
        intro habs
        rcases List.mem_cons.mp habs with heq | hmem
        · exact hne heq.symm
        · exact h3 hmem

theorem parse_tags_nodup (s : String) : (parse_tags s).Nodup := by
  rw [parse_tags]
  split
  · exact List.nodup_nil
  · exact parseTagsLoop_nodup _ [] List.nodup_nil

theorem parse_tags_sublist (s : String) :
    List.Sublist (parse_tags s)
      ((pySplit s ",").map (fun p => pyToLower (pyStrip p))) := by
  rw [parse_tags]
  split
  · exact List.nil_sublist _
  · obtain ⟨suf, h1, h2, _⟩ := parseTagsLoop_spec (pySplit s ",") []
    rw [h1]
    simpa using h2

theorem parse_tags_ne_empty (s : String) : "" ∉ parse_tags s := by
  rw [parse_tags]
  split
  · simp
  · obtain ⟨suf, h1, _, h3⟩ := parseTagsLoop_spec (pySplit s ",") []
    rw [h1]
    simpa using h3

/-! ## Claim C8: lemmas on the accumulator association lists -/

theorem alistLookupD_nil {α : Type} (k : String) (d : α) :
    alistLookupD [] k d = d := rfl

theorem alistLookupD_cons {α : Type} (a : String) (b : α)
    (rest : List (String × α)) (k : String) (d : α) :
    alistLookupD ((a, b) :: rest) k d =
      if a = k then b else alistLookupD rest k d := by
  by_cases h : a = k
  · simp [alistLookupD, List.find?, h]
  · have hb : (a == k) = false := by simp [h]
    simp [alistLookupD, List.find?, hb, h]

theorem bumpScore_lookup (k' : String) (v : ℚ) :
    ∀ (m : List (String × ℚ)) (k : String),
      alistLookupD (bumpScore m k' v) k 0 =
        alistLookupD m k 0 + (if k = k' then v else 0)
  | [], k => by
    rw [show bumpScore [] k' v = [(k', v)] from rfl, alistLookupD_cons]
    by_cases h : k = k'
    · rw [if_pos h.symm, if_pos h]
      simp [alistLookupD_nil]
    · rw [if_neg (fun habs => h habs.symm), if_neg h]
      simp [alistLookupD_nil]
  | (a, b) :: rest, k => by
    by_cases h1 : a = k'
    · subst h1
      rw [show bumpScore ((a, b) :: rest) a v = (a, b + v) :: rest from by
        simp [bumpScore]]
      rw [alistLookupD_cons, alistLookupD_cons]
      by_cases h2 : a = k
      · rw [if_pos h2, if_pos h2, if_pos h2.symm]
      · rw [if_neg h2, if_neg h2, if_neg (fun habs => h2 habs.symm)]
        simp
    · rw [show bumpScore ((a, b) :: rest) k' v = (a, b) :: bumpScore rest k' v
        from by
          have hb : (a == k') = false := by simp [h1]
          simp [bumpScore, hb]]
      rw [alistLookupD_cons, alistLookupD_cons]
      by_cases h2 : a = k
      · rw [if_pos h2, if_pos h2,
          if_neg (fun habs : k = k' => h1 (h2.trans habs))]
        simp
      · rw [if_neg h2, if_neg h2]
        exact bumpScore_lookup k' v rest k

theorem bumpCount_lookup (k' : String) :
    ∀ (m : List (String × ℕ)) (k : String),
      alistLookupD (bumpCount m k') k 0 =
        alistLookupD m k 0 + (if k = k' then 1 else 0)
  | [], k => by
    rw [show bumpCount [] k' = [(k', 1)] from rfl, alistLookupD_cons]
    by_cases h : k = k'
    · rw [if_pos h.symm, if_pos h]
      simp [alistLookupD_nil]
    · rw [if_neg (fun habs => h habs.symm), if_neg h]
      simp [alistLookupD_nil]
  | (a, b) :: rest, k => by
    by_cases h1 : a = k'
    · subst h1
      rw [show bumpCount ((a, b) :: rest) a = (a, b + 1) :: rest from by
        simp [bumpCount]]
      rw [alistLookupD_cons, alistLookupD_cons]
      by_cases h2 : a = k
      · rw [if_pos h2, if_pos h2, if_pos h2.symm]
      · rw [if_neg h2, if_neg h2, if_neg (fun habs => h2 habs.symm)]
        simp
    · rw [show bumpCount ((a, b) :: rest) k' = (a, b) :: bumpCount rest k'
        from by
          have hb : (a == k') = false := by simp [h1]
          simp [bumpCount, hb]]
      rw [alistLookupD_cons, alistLookupD_cons]
      by_cases h2 : a = k
      · rw [if_pos h2, if_pos h2,
          if_neg (fun habs : k = k' => h1 (h2.trans habs))]
        simp
      · rw [if_neg h2, if_neg h2]
        exact bumpCount_lookup k' rest k

theorem foldl_bumpScore_lookup (d : ℚ) :
    ∀ (tags : List String) (m : List (String × ℚ)) (k : String),
      tags.Nodup →
      alistLookupD (tags.foldl (fun m t => bumpScore m t d) m) k 0 =
        alistLookupD m k 0 + (if k ∈ tags then d else 0)
  | [], m, k, _ => by simp
  | t :: rest, m, k, hnd => by
    rw [List.foldl_cons,
      foldl_bumpScore_lookup d rest (bumpScore m t d) k hnd.of_cons,
      bumpScore_lookup]
    by_cases h1 : k = t
    · subst h1
      have hk : k ∉ rest := (List.nodup_cons.mp hnd).1
      simp [hk]
    · by_cases h2 : k ∈ rest <;> simp [h1, h2, List.mem_cons]

theorem foldl_bumpCount_lookup :
    ∀ (tags : List String) (m : List (String × ℕ)) (k : String),
      tags.Nodup →
      alistLookupD (tags.foldl (fun m t => bumpCount m t) m) k 0 =
        alistLookupD m k 0 + (if k ∈ tags then 1 else 0)
  | [], m, k, _ => by simp
  | t :: rest, m, k, hnd => by
    rw [List.foldl_cons,
      foldl_bumpCount_lookup rest (bumpCount m t) k hnd.of_cons,
      bumpCount_lookup]
    by_cases h1 : k = t
    · subst h1
      have hk : k ∉ rest := (List.nodup_cons.mp hnd).1
      simp [hk]
    · by_cases h2 : k ∈ rest <;> simp [h1, h2, List.mem_cons]

theorem bumpScore_keys (k : String) (v : ℚ) :
    ∀ m : List (String × ℚ),
      (bumpScore m k v).map Prod.fst =
        if k ∈ m.map Prod.fst then m.map Prod.fst
        else m.map Prod.fst ++ [k]
  | [] => by simp [bumpScore]
  | (a, b) :: rest => by
    by_cases h : a = k
    · subst h
      simp [bumpScore]
    · have hb : (a == k) = false := by simp [h]
      have hne : ¬ k = a := fun habs => h habs.symm
      rw [show bumpScore ((a, b) :: rest) k v = (a, b) :: bumpScore rest k v
        from by simp [bumpScore, hb]]
      by_cases h2 : k ∈ rest.map Prod.fst <;>
        simp [bumpScore_keys k v rest, h2, hne, List.mem_cons]

theorem bumpScore_keys_nodup (k : String) (v : ℚ)
    (m : List (String × ℚ)) (h : (m.map Prod.fst).Nodup) :
    ((bumpScore m k v).map Prod.fst).Nodup := by
  rw [bumpScore_keys]
  by_cases h2 : k ∈ m.map Prod.fst
  · rwa [if_pos h2]
  · rw [if_neg h2]
    simp [List.nodup_append, h, h2]

theorem foldl_bumpScore_keys_nodup (d : ℚ) :
    ∀ (tags : List String) (m : List (String × ℚ)),
      (m.map Prod.fst).Nodup →
      (((tags.foldl (fun m t => bumpScore m t d) m)).map Prod.fst).Nodup
  | [], m, h => h
  | t :: rest, m, h => by
    rw [List.foldl_cons]
    exact foldl_bumpScore_keys_nodup d rest (bumpScore m t d)
      (bumpScore_keys_nodup t d m h)

theorem aggStep_score_lookup (acc : List (String × ℚ) ×
    List (String × ℕ) × ℕ × ℕ) (row : HistoryRow) (k : String) :
    alistLookupD (aggStep acc row).1 k 0 =
      alistLookupD acc.1 k 0 +
        (if 0 < row.listen_duration ∧ k ∈ parse_tags row.tags_raw then
          row.listen_duration else 0) := by
  unfold aggStep
  by_cases hd : row.listen_duration ≤ 0
  · have hnd : ¬ 0 < row.listen_duration := by linarith
    simp [hd, hnd]
  · have hd2 : 0 < row.listen_duration := by linarith
    by_cases ht : (parse_tags row.tags_raw).isEmpty
    · have hte : parse_tags row.tags_raw = [] := by
        simpa [List.isEmpty_iff] using ht
      simp [hd, ht, hte]
    · simp only [hd, if_false, ht, Bool.false_eq_true]
      rw [foldl_bumpScore_lookup row.listen_duration _ acc.1 k
        (parse_tags_nodup _)]
      by_cases hk : k ∈ parse_tags row.tags_raw <;> simp [hk, hd2]

theorem aggStep_count_lookup (acc : List (String × ℚ) ×
    List (String × ℕ) × ℕ × ℕ) (row : HistoryRow) (k : String) :
    alistLookupD (aggStep acc row).2.1 k 0 =
      alistLookupD acc.2.1 k 0 +
        (if 0 < row.listen_duration ∧ k ∈ parse_tags row.tags_raw then
          1 else 0) := by
  unfold aggStep
  by_cases hd : row.listen_duration ≤ 0
  · have hnd : ¬ 0 < row.listen_duration := by linarith
    simp [hd, hnd]
  · have hd2 : 0 < row.listen_duration := by linarith
    by_cases ht : (parse_tags row.tags_raw).isEmpty
    · have hte : parse_tags row.tags_raw = [] := by
        simpa [List.isEmpty_iff] using ht
      simp [hd, ht, hte]
    · simp only [hd, if_false, ht, Bool.false_eq_true]
      rw [foldl_bumpCount_lookup _ acc.2.1 k (parse_tags_nodup _)]
      by_cases hk : k ∈ parse_tags row.tags_raw <;> simp [hk, hd2]

theorem foldl_aggStep_score_lookup :
    ∀ (rows : List HistoryRow) (acc : List (String × ℚ) ×
      List (String × ℕ) × ℕ × ℕ) (k : String),
      alistLookupD (rows.foldl aggStep acc).1 k 0 =
        alistLookupD acc.1 k 0 + specTagScore k rows
  | [], acc, k => by simp [specTagScore]
  | row :: rest, acc, k => by
    rw [List.foldl_cons, foldl_aggStep_score_lookup rest (aggStep acc row) k,
      aggStep_score_lookup, specTagScore]
    ring

theorem foldl_aggStep_count_lookup :
    ∀ (rows : List HistoryRow) (acc : List (String × ℚ) ×
      List (String × ℕ) × ℕ × ℕ) (k : String),
      alistLookupD (rows.foldl aggStep acc).2.1 k 0 =
        alistLookupD acc.2.1 k 0 + specTagCount k rows
  | [], acc, k => by simp [specTagCount]
  | row :: rest, acc, k => by
    rw [List.foldl_cons, foldl_aggStep_count_lookup rest (aggStep acc row) k,
      aggStep_count_lookup, specTagCount]
    omega

theorem aggStep_keys_nodup (acc : List (String × ℚ) ×
    List (String × ℕ) × ℕ × ℕ) (row : HistoryRow)
    (h : (acc.1.map Prod.fst).Nodup) :
    (((aggStep acc row).1).map Prod.fst).Nodup := by
  unfold aggStep
  by_cases hd : row.listen_duration ≤ 0
  · simpa [hd] using h
  · by_cases ht : (parse_tags row.tags_raw).isEmpty
    · simpa [hd, ht] using h
    · simp only [hd, if_false, ht, Bool.false_eq_true]
      exact foldl_bumpScore_keys_nodup row.listen_duration _ acc.1 h

theorem foldl_aggStep_keys_nodup :
    ∀ (rows : List HistoryRow) (acc : List (String × ℚ) ×
      List (String × ℕ) × ℕ × ℕ),
      (acc.1.map Prod.fst).Nodup →
      (((rows.foldl aggStep acc).1).map Prod.fst).Nodup
  | [], _, h => h
  | row :: rest, acc, h => by
    rw [List.foldl_cons]
    exact foldl_aggStep_keys_nodup rest (aggStep acc row)
      (aggStep_keys_nodup acc row h)

theorem alist_mem_lookup {α : Type} :
    ∀ (m : List (String × α)) (k : String) (v : α) (d : α),
      (m.map Prod.fst).Nodup → (k, v) ∈ m → alistLookupD m k d = v
  | [], _, _, _, _, hm => absurd hm (by simp)
  | (a, b) :: rest, k, v, d, h, hm => by
    rcases List.mem_cons.mp hm with heq | hm2
    · injection heq with h1 h2
      subst h1
      subst h2
      rw [alistLookupD_cons, if_pos rfl]
    · have hka : ¬ a = k := by
        intro habs
        subst habs
        exact (List.nodup_cons.mp (by simpa using h)).1
          (List.mem_map_of_mem Prod.fst hm2)
      rw [alistLookupD_cons, if_neg hka]
      exact alist_mem_lookup rest k v d
        (List.nodup_cons.mp (by simpa using h)).2 hm2

theorem tagRel_total (a b : String × ℚ) : tagRel a b ∨ tagRel b a := by
  rcases lt_trichotomy a.2 b.2 with h | h | h
  · exact Or.inr (Or.inl h)
  · have hs := strLeB_total a.1 b.1
    rw [Bool.or_eq_true] at hs
    rcases hs with hs | hs
    · exact Or.inl (Or.inr ⟨h, hs⟩)
    · exact Or.inr (Or.inr ⟨h.symm, hs⟩)
  · exact Or.inl (Or.inl h)

theorem tagRel_trans (a b c : String × ℚ) :
    tagRel a b → tagRel b c → tagRel a c := by
  rintro (h1 | ⟨h1e, h1s⟩) (h2 | ⟨h2e, h2s⟩)
  · exact Or.inl (lt_trans h2 h1)
  · exact Or.inl (h2e ▸ h1)
  · refine Or.inl ?_
    rw [h1e]
    exact h2
  · exact Or.inr ⟨h1e.trans h2e, strLeB_trans _ _ _ h1s h2s⟩

set_option maxRecDepth 8000 in
/-- Claim C8: the personal-tags aggregation parses each row's tag string
into a lower-cased deduplicated order-preserving list, accumulates per tag
the total listened duration and count of contributing stations over the
positive-duration rows, sorts by descending accumulated duration with ties
broken by ascending tag name, truncates to the clamped limit, rounds scores
to two decimals, and on the specification's worked example produces the
claimed output in the claimed order. -/
theorem C8_get_my_top_tags (limit : ℤ) (rows : List HistoryRow) :
    (∀ s : String, (parse_tags s).Nodup ∧
      List.Sublist (parse_tags s)
        ((pySplit s ",").map (fun p => pyToLower (pyStrip p))) ∧
      "" ∉ parse_tags s) ∧
    (∀ e ∈ (get_my_top_tags limit rows).1,
      e.score = pyRound2 (specTagScore e.tag rows) ∧
      e.stations_count = specTagCount e.tag rows) ∧
    ((get_my_top_tags limit rows).1.map TagEntry.tag).Nodup ∧
    List.Pairwise (fun a b : TagEntry =>
      specTagScore b.tag rows < specTagScore a.tag rows ∨
        (specTagScore a.tag rows = specTagScore b.tag rows ∧
          strLe a.tag b.tag)) (get_my_top_tags limit rows).1 ∧
    ((get_my_top_tags limit rows).1.length ≤
        (get_my_top_tags limit rows).2.1.toNat ∧
      1 ≤ (get_my_top_tags limit rows).2.1 ∧
      (get_my_top_tags limit rows).2.1 ≤ 1000) ∧
    (get_my_top_tags 10 exRows).1 =
      [⟨"rock", 150, 2⟩, ⟨"jazz", 100, 1⟩] := by
  have hkeys : (((rows.foldl aggStep ([], [], 0, 0)).1).map Prod.fst).Nodup :=
    foldl_aggStep_keys_nodup rows _ (by simp)
  have hmemval : ∀ p ∈ List.insertionSort tagRel
      (rows.foldl aggStep ([], [], 0, 0)).1,
      p.2 = specTagScore p.1 rows := by
    intro p hp
    have hp2 : p ∈ (rows.foldl aggStep ([], [], 0, 0)).1 :=
      (List.perm_insertionSort tagRel _).subset hp
    have hval : alistLookupD (rows.foldl aggStep ([], [], 0, 0)).1 p.1 0 =
        p.2 := alist_mem_lookup _ _ _ _ hkeys hp2
    rw [← hval, foldl_aggStep_score_lookup rows _ p.1]
    simp [alistLookupD_nil]
  refine ⟨fun s => ⟨parse_tags_nodup s, parse_tags_sublist s,
    parse_tags_ne_empty s⟩, ?_, ?_, ?_, ?_, ?_⟩
  · intro e he
    simp only [get_my_top_tags, List.mem_map] at he
    obtain ⟨p, hp, rfl⟩ := he
    have hp1 : p ∈ List.insertionSort tagRel
        (rows.foldl aggStep ([], [], 0, 0)).1 :=
      (List.take_sublist _ _).subset hp
    constructor
    · dsimp only
      rw [hmemval p hp1]
    · dsimp only
      rw [foldl_aggStep_count_lookup rows _ p.1]
      simp [alistLookupD_nil]
  · have hnodup : ((List.insertionSort tagRel
        (rows.foldl aggStep ([], [], 0, 0)).1).map Prod.fst).Nodup :=
      ((List.perm_insertionSort tagRel _).map Prod.fst).nodup_iff.mpr hkeys
    simp only [get_my_top_tags, List.map_map]
    have heq : (TagEntry.tag ∘ fun p : String × ℚ =>
        (⟨p.1, pyRound2 p.2,
          alistLookupD (rows.foldl aggStep ([], [], 0, 0)).2.1 p.1 0⟩ :
            TagEntry)) = Prod.fst := by
      funext p
      rfl
    rw [heq, List.map_take]
    exact List.Nodup.sublist (List.take_sublist _ _) hnodup
  · haveI : IsTotal (String × ℚ) tagRel := ⟨tagRel_total⟩
    haveI : IsTrans (String × ℚ) tagRel := ⟨tagRel_trans⟩
    have hsorted : List.Pairwise tagRel (List.insertionSort tagRel
        (rows.foldl aggStep ([], [], 0, 0)).1) :=
      List.sorted_insertionSort tagRel _
    have htake : List.Pairwise tagRel (List.take
        (get_my_top_tags_safe_limit limit).toNat
        (List.insertionSort tagRel (rows.foldl aggStep ([], [], 0, 0)).1)) :=
      hsorted.sublist (List.take_sublist _ _)
    simp only [get_my_top_tags, List.pairwise_map]
    refine htake.imp_of_mem ?_
    intro p q hpmem hqmem hrel
    have hpv := hmemval p ((List.take_sublist _ _).subset hpmem)
    have hqv := hmemval q ((List.take_sublist _ _).subset hqmem)
    rw [← hpv, ← hqv]
    exact hrel
  · refine ⟨?_, ?_, ?_⟩
    · simp only [get_my_top_tags, List.length_map]
      exact (List.length_take_le _ _)
    · simp [get_my_top_tags, get_my_top_tags_safe_limit]
    · simp only [get_my_top_tags, get_my_top_tags_safe_limit]
      omega
  · have h1 : parse_tags "jazz,rock" = ["jazz", "rock"] := by decide
    have h2 : parse_tags "rock" = ["rock"] := by decide
    have h3 : pyToLower (pyStrip "rock") = "rock" := by decide
    have h4 : pyToLower (pyStrip "jazz") = "jazz" := by decide
    have h5 : ("jazz" == "rock") = false := by decide
    norm_num [get_my_top_tags, get_my_top_tags_safe_limit, aggStep, exRows,
      h1, h2, h3, h4, h5, bumpScore, bumpCount, alistLookupD,
      List.insertionSort, List.orderedInsert, tagRel, strLe, pyRound2,
      roundHalfEvenInt, List.foldl, List.find?, List.take]

/-- Witness for C8: the specification's worked example is in the image of
the aggregation, and its leading entry carries the specified accumulated
score and station count for the rock tag. -/
theorem C8_witness :
    (⟨"rock", 150, 2⟩ : TagEntry) ∈ (get_my_top_tags 10 exRows).1 ∧
    ((150 : ℚ) = pyRound2 (specTagScore "rock" exRows) ∧
      (2 : ℕ) = specTagCount "rock" exRows) := by
  have h := C8_get_my_top_tags 10 exRows
  have hex := h.2.2.2.2.2
  have hmem : (⟨"rock", 150, 2⟩ : TagEntry) ∈ (get_my_top_tags 10 exRows).1 := by
    rw [hex]
    simp
  have hprops := h.2.1 ⟨"rock", 150, 2⟩ hmem
  exact ⟨hmem, hprops⟩

end RadioBrowser
